import Mathlib

/-!
Verification of the sync_services backend against its specification.

The development shallowly embeds the Python sources:

* `backend/utils/path_utils.py`   — path sanitization and sandbox containment
* `backend/services/file_manager.py` — file listing / reading / saving
* `backend/services/git_service.py`  — status / commit / push / pull wrappers
* `backend/services/sync_service.py` — the auto-sync scheduler
* `backend/main.py`               — the HTTP boundary layer (only what claims need)

Modelling conventions:

* Python `str` values are Lean `String`s; computations on them go through
  `List Char` so that proofs can evaluate by kernel reduction.
* Byte strings are `List Nat` (each entry < 256 where it matters).
* Filesystem paths are segment lists (`List String`) denoting absolute
  POSIX paths; the model is symlink-free, so `Path.resolve()` is the
  lexical elimination of `.` and `..` segments.
* Time stamps are `Nat`s supplied by the caller (`datetime.now()` oracle).
* The external git library is an oracle (`GitWorld`) recording what each
  underlying git call would report; the service-layer control flow is
  translated from the source.
* Python exceptions become `Except` / `Option` results.
-/

set_option maxRecDepth 8192

namespace SyncServices

/-! ## Generic string helpers (models of Python str operations) -/

/-- Lowercase a string character-wise, as Python `str.lower` does for
the ASCII names the repository manipulates. -/
def pyLower (s : String) : String := (s.toList.map Char.toLower).asString

/-- Characters removed by `sanitize_path` (path_utils.py line 8). -/
def dangerousChars : List Char := ['<', '>', ':', '"', '|', '?', '*']

/-- Drop leading and trailing space/dot characters: Python
`str.strip(' .')` (path_utils.py line 10). -/
def stripSpaceDot (cs : List Char) : List Char :=
  ((cs.dropWhile (fun c => c == ' ' || c == '.')).reverse.dropWhile
    (fun c => c == ' ' || c == '.')).reverse

/-- Remove every non-overlapping occurrence of `../`, scanning left to
right: Python `re.sub(r..., path)` at path_utils.py line 14. -/
def removeDotDotSlash : List Char → List Char
  | '.' :: '.' :: '/' :: rest => removeDotDotSlash rest
  | c :: rest => c :: removeDotDotSlash rest
  | [] => []

/-- Remove a leading `..`: Python `re.sub` anchored at the start
(path_utils.py line 15). -/
def removeLeadingDotDot (cs : List Char) : List Char :=
  match cs with
  | '.' :: '.' :: rest => rest
  | _ => cs

/-- `sanitize_path` from path_utils.py lines 5-16, step for step:
drop dangerous characters, strip leading/trailing space and dots,
turn backslashes into slashes, drop `../` occurrences, drop a
leading `..`. -/
def sanitize_path (path : String) : String :=
  let s1 := path.toList.filter (fun c => !(dangerousChars.contains c))
  let s2 := stripSpaceDot s1
  let s3 := s2.map (fun c => if c == '\\' then '/' else c)
  let s4 := removeDotDotSlash s3
  let s5 := removeLeadingDotDot s4
  s5.asString

/-! ## Paths as segment lists -/

/-- Split a character list on `/`. -/
def splitSlash : List Char → List (List Char)
  | [] => [[]]
  | c :: cs =>
    let r := splitSlash cs
    if c == '/' then [] :: r
    else
      match r with
      | [] => [[c]]
      | s :: ss => (c :: s) :: ss

/-- Parse a Python path string the way `pathlib.PurePosixPath` does:
report whether it is absolute, and keep the non-empty segments other
than `.` (pathlib drops both on construction). -/
def parsePyPath (s : String) : Bool × List String :=
  let cs := s.toList
  let isAbs := match cs with
    | '/' :: _ => true
    | _ => false
  let segs := ((splitSlash cs).map List.asString).filter
    (fun seg => !(seg == "") && !(seg == "."))
  (isAbs, segs)

/-- `base_path / sanitized` (path_utils.py line 21): pathlib joining,
where joining an absolute right operand discards the left one. -/
def pathJoin (base : List String) (p : String) : List String :=
  let parsed := parsePyPath p
  if parsed.1 then parsed.2 else base ++ parsed.2

/-- `Path.resolve()` in a symlink-free world: eliminate `.` segments and
let `..` drop the previous segment (the parent of the root is the
root). -/
def resolveSegs (segs : List String) : List String :=
  segs.foldl
    (fun acc seg =>
      if seg == ".." then acc.dropLast
      else if seg == "." then acc
      else acc ++ [seg]) []

/-- `get_safe_path` from path_utils.py lines 18-28: sanitize, join to the
base, and accept exactly when the resolved result still lies under the
resolved base (`full_path.resolve().relative_to(base_path.resolve())`
succeeds precisely on ancestor-or-equal containment, segment-wise).
`none` models the raised `ValueError` (the `PathEscape` failure). -/
def get_safe_path (base : List String) (relative_path : String) :
    Option (List String) :=
  let sanitized := sanitize_path relative_path
  let full_path := pathJoin base sanitized
  if (resolveSegs base).isPrefixOf (resolveSegs full_path) then some full_path
  else none

/-- Modelled from the spec: resolution "fails with `PathEscape` exactly
when the canonicalized joined path does not have the base directory as
ancestor (or equal)". Stated over the same canonicalization used by the
source so that the claim can be compared with `get_safe_path`. -/
def specPathEscape (base : List String) (relative_path : String) : Prop :=
  ¬ ((resolveSegs base).isPrefixOf
      (resolveSegs (pathJoin base (sanitize_path relative_path))) = true)

/-- String-prefix test on raw strings (what the source deliberately does
NOT use for containment). -/
def strIsPre (a b : String) : Bool := a.toList.isPrefixOf b.toList

/-! ## Language table and binary detection (path_utils.py lines 30-80) -/

/-- `Path(name).suffix` as CPython computes it: the part of the final
component from the last dot on, provided that dot is neither the first
nor the last character. -/
def pySuffix (name : String) : String :=
  let cs := name.toList
  let idxs := (List.range cs.length).filter (fun i => cs.getD i ' ' == '.')
  match idxs.getLast? with
  | none => ""
  | some i => if 0 < i ∧ i < cs.length - 1 then (cs.drop i).asString else ""

/-- The extension-to-language table of `get_file_language`
(path_utils.py lines 34-69). -/
def language_map : List (String × String) :=
  [(".py", "python"), (".js", "javascript"), (".jsx", "javascript"),
   (".ts", "typescript"), (".tsx", "typescript"), (".html", "html"),
   (".css", "css"), (".scss", "scss"), (".sass", "sass"),
   (".json", "json"), (".xml", "xml"), (".yaml", "yaml"),
   (".yml", "yaml"), (".md", "markdown"), (".txt", "text"),
   (".sh", "bash"), (".bat", "batch"), (".ps1", "powershell"),
   (".php", "php"), (".rb", "ruby"), (".go", "go"), (".rs", "rust"),
   (".java", "java"), (".c", "c"), (".cpp", "cpp"), (".cs", "csharp"),
   (".sql", "sql"), (".r", "r"), (".swift", "swift"), (".kt", "kotlin"),
   (".scala", "scala"), (".dart", "dart"), (".vue", "vue"),
   (".svelte", "svelte")]

/-- `get_file_language` (path_utils.py lines 30-71): look the lowercase
suffix up in the table, defaulting to `"text"`. -/
def get_file_language (file_path : String) : String :=
  let extension := pyLower (pySuffix file_path)
  match language_map.find? (fun kv => kv.1 == extension) with
  | some kv => kv.2
  | none => "text"

/-- `is_binary_file` (path_utils.py lines 73-80) applied to the stored
bytes: a NUL byte among the first 512 bytes classifies the file as
binary. -/
def is_binary_file (content : List Nat) : Bool :=
  (content.take 512).contains 0

/-! ## UTF-8 (model of Python `bytes.decode("utf-8", errors="replace")`
and `str.encode("utf-8")`) -/

/-- A Unicode scalar value: what `str.encode("utf-8")` accepts. -/
def Utf8Scalar (c : Nat) : Prop := c < 0xD800 ∨ (0xE000 ≤ c ∧ c < 0x110000)

instance (c : Nat) : Decidable (Utf8Scalar c) := by
  unfold Utf8Scalar; infer_instance

/-- UTF-8 encoding of one scalar value. -/
def utf8EncodeChar (c : Nat) : List Nat :=
  if c < 0x80 then [c]
  else if c < 0x800 then [0xC0 + c / 64, 0x80 + c % 64]
  else if c < 0x10000 then
    [0xE0 + c / 4096, 0x80 + c / 64 % 64, 0x80 + c % 64]
  else
    [0xF0 + c / 0x40000, 0x80 + c / 4096 % 64, 0x80 + c / 64 % 64,
     0x80 + c % 64]

/-- UTF-8 encoding of a sequence of scalar values. -/
def utf8Encode : List Nat → List Nat
  | [] => []
  | c :: cs => utf8EncodeChar c ++ utf8Encode cs

/-- Lower bound of the first continuation byte after lead byte `b`
(the E0/F0 rows of the UTF-8 table exclude overlong forms). -/
def utf8Cont1Lo (b : Nat) : Nat :=
  if b = 0xE0 then 0xA0 else if b = 0xF0 then 0x90 else 0x80

/-- Upper bound of the first continuation byte after lead byte `b`
(the ED row excludes surrogates, the F4 row caps at U+10FFFF). -/
def utf8Cont1Hi (b : Nat) : Nat :=
  if b = 0xED then 0x9F else if b = 0xF4 then 0x8F else 0xBF

/-- Decode one code point (or a replacement marker U+FFFD) from lead
byte `b` and the remaining bytes, returning it with the bytes left. -/
def utf8DecodeStep (b : Nat) (bs : List Nat) : Nat × List Nat :=
  if b < 0x80 then (b, bs)
  else if 0xC2 ≤ b ∧ b ≤ 0xDF then
    match bs with
    | b1 :: rest =>
      if 0x80 ≤ b1 ∧ b1 ≤ 0xBF then ((b - 0xC0) * 64 + (b1 - 0x80), rest)
      else (0xFFFD, bs)
    | [] => (0xFFFD, [])
  else if 0xE0 ≤ b ∧ b ≤ 0xEF then
    match bs with
    | b1 :: b2 :: rest =>
      if utf8Cont1Lo b ≤ b1 ∧ b1 ≤ utf8Cont1Hi b ∧ 0x80 ≤ b2 ∧ b2 ≤ 0xBF then
        ((b - 0xE0) * 4096 + (b1 - 0x80) * 64 + (b2 - 0x80), rest)
      else (0xFFFD, bs)
    | _ => (0xFFFD, bs)
  else if 0xF0 ≤ b ∧ b ≤ 0xF4 then
    match bs with
    | b1 :: b2 :: b3 :: rest =>
      if utf8Cont1Lo b ≤ b1 ∧ b1 ≤ utf8Cont1Hi b ∧ 0x80 ≤ b2 ∧ b2 ≤ 0xBF ∧
          0x80 ≤ b3 ∧ b3 ≤ 0xBF then
        ((b - 0xF0) * 0x40000 + (b1 - 0x80) * 4096 + (b2 - 0x80) * 64 +
          (b3 - 0x80), rest)
      else (0xFFFD, bs)
    | _ => (0xFFFD, bs)
  else (0xFFFD, bs)

theorem utf8DecodeStep_length (b : Nat) (bs : List Nat) :
    (utf8DecodeStep b bs).2.length ≤ bs.length := by
  unfold utf8DecodeStep
  repeat' split
  all_goals simp_all
  all_goals omega

/-- Iterate `utf8DecodeStep`; the fuel dominates the input length so
the recursion is structural and the definition kernel-reducible. -/
def utf8DecodeAux : Nat → List Nat → List Nat
  | 0, _ => []
  | fuel + 1, l =>
    match l with
    | [] => []
    | b :: bs =>
      (utf8DecodeStep b bs).1 :: utf8DecodeAux fuel (utf8DecodeStep b bs).2

/-- Lossy UTF-8 decoding: invalid sequences produce U+FFFD, as Python
`errors="replace"` does (the exact grouping of invalid bytes is not
observable by any claim). -/
def utf8Decode (l : List Nat) : List Nat := utf8DecodeAux l.length l

theorem utf8DecodeAux_congr (fuel : Nat) :
    ∀ (fuel' : Nat) (l : List Nat), l.length ≤ fuel → l.length ≤ fuel' →
    utf8DecodeAux fuel l = utf8DecodeAux fuel' l := by
  induction fuel with
  | zero =>
    intro fuel' l h h'
    cases l with
    | nil => cases fuel' <;> rfl
    | cons b bs => simp at h
  | succ fuel ih =>
    intro fuel' l h h'
    cases l with
    | nil => cases fuel' <;> rfl
    | cons b bs =>
      cases fuel' with
      | zero => simp at h'
      | succ fuel'' =>
        rw [utf8DecodeAux, utf8DecodeAux]
        congr 1
        exact ih fuel'' _
          (le_trans (utf8DecodeStep_length b bs) (by simp at h; omega))
          (le_trans (utf8DecodeStep_length b bs) (by simp at h'; omega))

theorem utf8DecodeStep_encode (c : Nat) (h : Utf8Scalar c)
    (rest : List Nat) :
    ∃ b tail, utf8EncodeChar c = b :: tail ∧
      utf8DecodeStep b (tail ++ rest) = (c, rest) := by
  rcases Nat.lt_or_ge c 0x80 with h1 | h1
  · refine ⟨c, [], ?_, ?_⟩
    · simp [utf8EncodeChar, if_pos h1]
    · simp [utf8DecodeStep, if_pos h1]
  rcases Nat.lt_or_ge c 0x800 with h2 | h2
  · refine ⟨0xC0 + c / 64, [0x80 + c % 64], ?_, ?_⟩
    · simp only [utf8EncodeChar, if_neg (by omega : ¬ c < 0x80),
        if_pos h2]
    · simp only [List.cons_append, List.nil_append, utf8DecodeStep]
      rw [if_neg (by omega), if_pos (by omega : 0xC2 ≤ 0xC0 + c / 64 ∧
        0xC0 + c / 64 ≤ 0xDF), if_pos (by omega : 0x80 ≤ 0x80 + c % 64 ∧
        0x80 + c % 64 ≤ 0xBF)]
      simp only [Prod.mk.injEq, and_true]
      omega
  rcases Nat.lt_or_ge c 0x10000 with h3 | h3
  · have hsc : c < 0xD800 ∨ 0xE000 ≤ c := by
      rcases h with h | h
      · exact Or.inl h
      · exact Or.inr h.1
    refine ⟨0xE0 + c / 4096, [0x80 + c / 64 % 64, 0x80 + c % 64], ?_, ?_⟩
    · simp only [utf8EncodeChar, if_neg (by omega : ¬ c < 0x80),
        if_neg (by omega : ¬ c < 0x800), if_pos h3]
    · simp only [List.cons_append, List.nil_append, utf8DecodeStep,
        utf8Cont1Lo, utf8Cont1Hi]
      rw [if_neg (by omega), if_neg (by omega : ¬ (0xC2 ≤ 0xE0 + c / 4096 ∧
        0xE0 + c / 4096 ≤ 0xDF)), if_pos (by omega : 0xE0 ≤ 0xE0 + c / 4096 ∧
        0xE0 + c / 4096 ≤ 0xEF)]
      rw [if_pos]
      · simp only [Prod.mk.injEq, and_true]
        omega
      · refine ⟨?_, ?_, by omega, by omega⟩
        · split
          · omega
          · split <;> omega
        · split
          · omega
          · split <;> omega
  · have hs : c < 0x110000 := by
      rcases h with h | h
      · omega
      · exact h.2
    refine ⟨0xF0 + c / 0x40000,
      [0x80 + c / 4096 % 64, 0x80 + c / 64 % 64, 0x80 + c % 64], ?_, ?_⟩
    · simp only [utf8EncodeChar, if_neg (by omega : ¬ c < 0x80),
        if_neg (by omega : ¬ c < 0x800), if_neg (by omega : ¬ c < 0x10000)]
    · simp only [List.cons_append, List.nil_append, utf8DecodeStep,
        utf8Cont1Lo, utf8Cont1Hi]
      rw [if_neg (by omega), if_neg (by omega : ¬ (0xC2 ≤ 0xF0 + c / 0x40000 ∧
        0xF0 + c / 0x40000 ≤ 0xDF)),
        if_neg (by omega : ¬ (0xE0 ≤ 0xF0 + c / 0x40000 ∧
        0xF0 + c / 0x40000 ≤ 0xEF)),
        if_pos (by omega : 0xF0 ≤ 0xF0 + c / 0x40000 ∧
        0xF0 + c / 0x40000 ≤ 0xF4)]
      rw [if_pos]
      · simp only [Prod.mk.injEq, and_true]
        omega
      · refine ⟨?_, ?_, by omega, by omega, by omega, by omega⟩
        · split
          · omega
          · split <;> omega
        · split
          · omega
          · split <;> omega

theorem utf8Decode_encodeChar_append (c : Nat) (h : Utf8Scalar c)
    (rest : List Nat) :
    utf8Decode (utf8EncodeChar c ++ rest) = c :: utf8Decode rest := by
  obtain ⟨b, tail, henc, hstep⟩ := utf8DecodeStep_encode c h rest
  rw [utf8Decode, henc, List.cons_append, List.length_cons, utf8DecodeAux,
    hstep]
  congr 1
  rw [utf8Decode]
  exact utf8DecodeAux_congr _ _ _ (by simp) (le_refl _)

/-- Round trip: decoding an encoded sequence of scalar values gives the
sequence back. -/
theorem utf8Decode_utf8Encode (cs : List Nat)
    (h : ∀ c ∈ cs, Utf8Scalar c) :
    utf8Decode (utf8Encode cs) = cs := by
  induction cs with
  | nil => rfl
  | cons c cs ih =>
    rw [utf8Encode, utf8Decode_encodeChar_append c (h c (List.mem_cons_self c cs))]
    rw [ih (fun d hd => h d (List.mem_cons_of_mem c hd))]

/-- Decidable equality for `Except` results (used to state concrete
evaluations). -/
instance {e a : Type} [DecidableEq e] [DecidableEq a] :
    DecidableEq (Except e a) := fun x y => by
  cases x <;> cases y
  case error.error e1 e2 =>
    exact match decEq e1 e2 with
    | isTrue h => isTrue (by rw [h])
    | isFalse h => isFalse (by intro hx; cases hx; exact h rfl)
  case ok.ok a1 a2 =>
    exact match decEq a1 a2 with
    | isTrue h => isTrue (by rw [h])
    | isFalse h => isFalse (by intro hx; cases hx; exact h rfl)
  case error.ok e1 a1 => exact isFalse (by intro hx; cases hx)
  case ok.error a1 e1 => exact isFalse (by intro hx; cases hx)

/-! ## Filesystem model

A symlink-free filesystem is a finite association of absolute paths
(segment lists) to entries.  The sandbox base directory itself always
exists (`FileManager.__init__` creates it); it is not stored as an
entry, every stored key lies strictly below it. -/

/-- A filesystem entry: a regular file with its bytes, or a directory.
`mtime` models `stat().st_mtime`. -/
inductive Entry
  | file (content : List Nat) (mtime : Nat)
  | dir (mtime : Nat)
deriving DecidableEq

def Entry.isFileB : Entry → Bool
  | .file _ _ => true
  | .dir _ => false

def Entry.isDirB : Entry → Bool
  | .file _ _ => false
  | .dir _ => true

structure FS where
  entries : List (List String × Entry)
deriving DecidableEq

def FS.find (fs : FS) (p : List String) : Option Entry :=
  (fs.entries.find? (fun pe => pe.1 == p)).map (fun pe => pe.2)

def FS.isFileAt (fs : FS) (p : List String) : Bool :=
  match fs.find p with
  | some e => e.isFileB
  | none => false

def FS.isDirAt (fs : FS) (p : List String) : Bool :=
  match fs.find p with
  | some e => e.isDirB
  | none => false

/-- Store an entry at `p`, replacing whatever was there. -/
def FS.insertEntry (fs : FS) (p : List String) (e : Entry) : FS :=
  ⟨(p, e) :: fs.entries.filter (fun pe => !(pe.1 == p))⟩

/-- Well-formed filesystem over `base`: unique keys, every key strictly
below `base`, and every strict ancestor (above `base`) of a key is a
directory key (filesystems are ancestor-closed). -/
structure FSWF (fs : FS) (base : List String) : Prop where
  nodup : (fs.entries.map Prod.fst).Nodup
  under : ∀ pe ∈ fs.entries, base.isPrefixOf pe.1 = true ∧ pe.1 ≠ base
  closed : ∀ pe ∈ fs.entries, ∀ i ∈ List.range pe.1.length,
    base.length < i → fs.isDirAt (pe.1.take i) = true

/-- `str(path.relative_to(base)).replace(backslash, slash)` for a path
below `base`. -/
def relStr (base p : List String) : String :=
  String.intercalate "/" (p.drop base.length)

/-- `name.startswith(".")`. -/
def pyStartsDot (s : String) : Bool :=
  match s.toList with
  | c :: _ => c == '.'
  | [] => false

/-! ## file_metadata.py data model -/

/-- `FileItem` (models/file_metadata.py lines 5-12).  `modified` is a
timestamp, string contents are code-point lists elsewhere. -/
structure FileItem where
  name : String
  path : String
  is_directory : Bool
  size : Option Nat
  modified : Option Nat
  extension : Option String
  language : Option String
deriving DecidableEq

/-- `FileContent` (models/file_metadata.py lines 14-19); `content` is
the decoded text as a code-point list. -/
structure FileContent where
  content : List Nat
  language : String
  path : String
  size : Nat
  modified : Nat
deriving DecidableEq

/-- A raised Python exception, as the boundary layer distinguishes
them: `FileNotFoundError` versus `ValueError` (everything
`file_manager.py` raises is one of the two). -/
inductive PyErr
  | fileNotFound (msg : String)
  | valueError (msg : String)
deriving DecidableEq

/-- `str(e)` on a modelled exception. -/
def pyErrStr : PyErr → String
  | .fileNotFound m => m
  | .valueError m => m

/-! ## Sorting (model of `list.sort(key=lambda x: (not x.is_directory,
x.name.lower()))`, file_manager.py line 38) -/

/-- Lexicographic comparison of code-point lists: Python string `<=`. -/
def lexLe : List Nat → List Nat → Bool
  | [], _ => true
  | _ :: _, [] => false
  | a :: as, b :: bs => if a < b then true else if a = b then lexLe as bs else false

/-- The case-folded sort key of a name. -/
def nameKey (s : String) : List Nat := (pyLower s).toList.map Char.toNat

/-- The sort order of file_manager.py line 38: directories strictly
before files, then case-insensitively by name. -/
def fileItemLe (a b : FileItem) : Bool :=
  if a.is_directory = b.is_directory then lexLe (nameKey a.name) (nameKey b.name)
  else a.is_directory

/-- Stable insertion into a sorted list. -/
def insertLe {α : Type} (le : α → α → Bool) (a : α) : List α → List α
  | [] => [a]
  | b :: bs => if le a b then a :: b :: bs else b :: insertLe le a bs

/-- Stable insertion sort, modelling Python `list.sort`. -/
def sortLe {α : Type} (le : α → α → Bool) : List α → List α
  | [] => []
  | a :: as => insertLe le a (sortLe le as)

theorem mem_insertLe {α : Type} (le : α → α → Bool) (a x : α)
    (l : List α) : x ∈ insertLe le a l ↔ x = a ∨ x ∈ l := by
  induction l with
  | nil => simp [insertLe]
  | cons b bs ih =>
    rw [insertLe]
    split
    · simp [List.mem_cons]
    · simp only [List.mem_cons, ih]
      tauto

theorem mem_sortLe {α : Type} (le : α → α → Bool) (x : α) (l : List α) :
    x ∈ sortLe le l ↔ x ∈ l := by
  induction l with
  | nil => simp [sortLe]
  | cons a as ih =>
    rw [sortLe, mem_insertLe]
    simp [List.mem_cons, ih]

theorem pairwise_insertLe {α : Type} (le : α → α → Bool)
    (htot : ∀ a b, le a b = true ∨ le b a = true)
    (htr : ∀ a b c, le a b = true → le b c = true → le a c = true)
    (a : α) (l : List α) (h : l.Pairwise (fun x y => le x y = true)) :
    (insertLe le a l).Pairwise (fun x y => le x y = true) := by
  induction l with
  | nil => simp [insertLe]
  | cons b bs ih =>
    rw [insertLe]
    split
    · rename_i hab
      refine List.Pairwise.cons ?_ h
      intro y hy
      rcases List.mem_cons.mp hy with rfl | hy
      · exact hab
      · exact htr a b y hab (List.rel_of_pairwise_cons h hy)
    · rename_i hnab
      have hba : le b a = true := by
        rcases htot a b with hx | hx
        · exact absurd hx hnab
        · exact hx
      rcases h with _ | ⟨hb, hbs⟩
      refine List.Pairwise.cons ?_ (ih hbs)
      intro y hy
      rcases (mem_insertLe le a y bs).mp hy with rfl | hy
      · exact hba
      · exact hb y hy

theorem pairwise_sortLe {α : Type} (le : α → α → Bool)
    (htot : ∀ a b, le a b = true ∨ le b a = true)
    (htr : ∀ a b c, le a b = true → le b c = true → le a c = true)
    (l : List α) :
    (sortLe le l).Pairwise (fun x y => le x y = true) := by
  induction l with
  | nil => simp [sortLe]
  | cons a as ih => exact pairwise_insertLe le htot htr a (sortLe le as) ih

theorem lexLe_total (a b : List Nat) : lexLe a b = true ∨ lexLe b a = true := by
  induction a generalizing b with
  | nil => left; rfl
  | cons x xs ih =>
    cases b with
    | nil => right; rfl
    | cons y ys =>
      rcases Nat.lt_trichotomy x y with h | h | h
      · left; simp [lexLe, h]
      · subst h
        rcases ih ys with hx | hx
        · left; simp [lexLe, hx]
        · right; simp [lexLe, hx]
      · right; simp [lexLe, h]

theorem lexLe_trans (a b c : List Nat) (h1 : lexLe a b = true)
    (h2 : lexLe b c = true) : lexLe a c = true := by
  induction a generalizing b c with
  | nil => rfl
  | cons x xs ih =>
    cases b with
    | nil => simp [lexLe] at h1
    | cons y ys =>
      cases c with
      | nil => simp [lexLe] at h2
      | cons z zs =>
        rw [lexLe] at h1 h2 ⊢
        split at h1
        · rename_i hxy
          split at h2
          · rename_i hyz
            rw [if_pos (by omega)]
          · split at h2
            · rename_i hyz
              subst hyz
              rw [if_pos (by assumption)]
            · exact absurd h2 (by simp)
        · split at h1
          · rename_i hxy
            subst hxy
            split at h2
            · rename_i hyz
              rw [if_pos hyz]
            · split at h2
              · rename_i hyz
                subst hyz
                rw [if_neg (by omega), if_pos rfl]
                exact ih ys zs h1 h2
              · exact absurd h2 (by simp)
          · exact absurd h1 (by simp)

theorem fileItemLe_total (a b : FileItem) :
    fileItemLe a b = true ∨ fileItemLe b a = true := by
  rw [fileItemLe, fileItemLe]
  by_cases h : a.is_directory = b.is_directory
  · rw [if_pos h, if_pos h.symm]
    exact lexLe_total _ _
  · rw [if_neg h, if_neg (fun hx => h hx.symm)]
    cases ha : a.is_directory <;> cases hb : b.is_directory <;> simp_all

theorem fileItemLe_trans (a b c : FileItem) (h1 : fileItemLe a b = true)
    (h2 : fileItemLe b c = true) : fileItemLe a c = true := by
  rw [fileItemLe] at h1 h2 ⊢
  cases ha : a.is_directory <;> cases hb : b.is_directory <;>
    cases hc : c.is_directory <;> simp_all
  all_goals exact lexLe_trans _ _ _ h1 h2

/-! ## FileManager (file_manager.py) -/

/-- The name under which `q` is a direct child of `target`, if it is. -/
def childNameOf (target q : List String) : Option String :=
  if target.isPrefixOf q ∧ q.length = target.length + 1 then q.getLast?
  else none

/-- Build the `FileItem` for a directory entry `q` (file_manager.py
lines 26-34). -/
def mkFileItem (base q : List String) (name : String) (e : Entry) :
    FileItem :=
  match e with
  | .file content mtime =>
    ⟨name, relStr base q, false, some content.length, some mtime,
     some (pyLower (pySuffix name)), some (get_file_language name)⟩
  | .dir mtime =>
    ⟨name, relStr base q, true, none, some mtime, none, none⟩

/-- Positions that exist as directories in the symlink-free world:
every prefix of `base` (the sandbox base is created at startup and its
ancestors exist), and every stored directory entry. -/
def FS.isDirPos (fs : FS) (base p : List String) : Bool :=
  p.isPrefixOf base || fs.isDirAt p

/-- The entry an `os.stat` of resolved position `p` reports: prefixes
of `base` are directories (their mtime is irrelevant to every claim);
anything else is looked up among the stored entries. -/
def FS.entryAt (fs : FS) (base p : List String) : Option Entry :=
  if p.isPrefixOf base then some (.dir 0) else fs.find p

/-- POSIX path walking in the symlink-free model, as the OS performs it
for `stat` and `iterdir`: segments are consumed left to right from the
current resolved position `cur`; `.` stays, `..` moves to the parent,
and a named segment can be traversed further only when it is an
existing directory.  The final component needs no existence check —
callers look it up with `FS.entryAt`.  Returns the resolved final
position, or `none` when an intermediate component is missing or not a
directory (Python's `Path.exists()` then reports `False`). -/
def FS.walk (fs : FS) (base : List String) :
    List String → List String → Option (List String)
  | cur, [] => some cur
  | cur, seg :: rest =>
    if seg == "." then FS.walk fs base cur rest
    else if seg == ".." then FS.walk fs base cur.dropLast rest
    else
      if rest.isEmpty then some (cur ++ [seg])
      else if fs.isDirPos base (cur ++ [seg]) then
        FS.walk fs base (cur ++ [seg]) rest
      else none

/-- `Path.exists()` / `os.stat` of an absolute path: walk it from the
root, then look up the final resolved position. -/
def FS.statPath (fs : FS) (base p : List String) : Option Entry :=
  (FS.walk fs base [] p).bind (fun r => fs.entryAt base r)

/-- The unsorted `items` list of `list_files`: `iterdir()` runs on the
OS-resolved target `rtarget`, so the children are the entries stored
directly below it; `item.relative_to(base)` is purely lexical, so the
recorded `path` field is built from the UNRESOLVED joined target
`utarget` (Python reports `a/../b/c.txt` when listing `a/../b`).
Names starting with a dot are skipped (file_manager.py lines 21-35). -/
def childItems (fs : FS) (base utarget rtarget : List String) :
    List FileItem :=
  fs.entries.filterMap (fun pe =>
    (childNameOf rtarget pe.1).bind (fun name =>
      if pyStartsDot name then none
      else some (mkFileItem base (utarget ++ [name]) name pe.2)))

/-- `FileManager.list_files` (file_manager.py lines 14-42): resolve the
path in the sandbox; `target_path.exists()` is an OS walk of the joined
path, so `..` segments that survived sanitization are resolved against
the actual directories.  A missing target gives `[]` (not an error); a
regular-file target makes `iterdir()` raise (re-raised as
`ValueError("Error listing files: ...")`); a directory target lists the
direct children of the resolved target, sorted directories-first and
then case-insensitively. -/
def FileManager.list_files (fs : FS) (base : List String)
    (relative_path : String) : Except String (List FileItem) :=
  match get_safe_path base relative_path with
  | none => .error "Error listing files: path outside the allowed directory"
  | some target =>
    match FS.walk fs base [] target with
    | none => .ok []
    | some r =>
      match fs.entryAt base r with
      | none => .ok []
      | some e =>
        if e.isFileB then
          .error "Error listing files: NotADirectoryError"
        else .ok (sortLe fileItemLe (childItems fs base target r))

/-- The last segment of a path: `Path.name`. -/
def lastSeg (p : List String) : String := (p.getLast?).getD ""

/-- The body of `FileManager.get_file_content` (file_manager.py lines
46-68) before the blanket `except` clause: raises `FileNotFoundError`
for a missing or non-regular file, `ValueError` for binary content
(NUL in the first 512 bytes), `ValueError` for sizes over 1 MiB,
otherwise decodes the bytes as UTF-8 with replacement. -/
def FileManager.get_file_content_inner (fs : FS) (base : List String)
    (relative_path : String) : Except PyErr FileContent :=
  match get_safe_path base relative_path with
  | none =>
    .error (.valueError ("Path " ++ relative_path ++
      " is not within the allowed directory"))
  | some p =>
    match fs.find p with
    | some (.file content mtime) =>
      if is_binary_file content then
        .error (.valueError "Cannot display binary file content")
      else if content.length > 1024 * 1024 then
        .error (.valueError "File too large to display (max 1MB)")
      else
        .ok ⟨utf8Decode content, get_file_language (lastSeg p),
          relative_path, content.length, mtime⟩
    | _ => .error (.fileNotFound ("File not found: " ++ relative_path))

/-- `FileManager.get_file_content` with its `except Exception` clause
(file_manager.py lines 70-71): EVERY failure, the `FileNotFoundError`
included, is re-raised as `ValueError("Error reading file: " + str(e))`. -/
def FileManager.get_file_content (fs : FS) (base : List String)
    (relative_path : String) : Except PyErr FileContent :=
  match FileManager.get_file_content_inner fs base relative_path with
  | .ok c => .ok c
  | .error e => .error (.valueError ("Error reading file: " ++ pyErrStr e))

/-- The HTTP status the `GET /files/...path` handler answers with
(main.py lines 84-94): 200 on success, 404 on `FileNotFoundError`,
500 on any other exception. -/
def httpGetFileContentStatus (fs : FS) (base : List String)
    (file_path : String) : Nat :=
  match FileManager.get_file_content fs base file_path with
  | .ok _ => 200
  | .error (.fileNotFound _) => 404
  | .error (.valueError _) => 500

/-- The strict ancestors of `p` lying strictly below `base`: the
directories `file_path.parent.mkdir(parents=True, exist_ok=True)`
walks (file_manager.py line 79). -/
def properAncestorsFrom (base p : List String) : List (List String) :=
  (List.range p.length).filterMap (fun i =>
    if base.length < i then some (p.take i) else none)

/-- Create the listed directories, oldest first, keeping existing
entries. -/
def FS.mkdirParents (fs : FS) (dirs : List (List String)) (now : Nat) : FS :=
  dirs.foldl
    (fun acc d => if (acc.find d).isSome then acc
      else acc.insertEntry d (.dir now)) fs

/-- `FileManager.save_file` (file_manager.py lines 73-87): resolve in
the sandbox, create missing parent directories, write the bytes
(overwriting), and return the normalized relative path.  Failures (path
escape, a parent existing as a regular file, the target being an
existing directory) are wrapped as `ValueError("Error saving file:
...")`. -/
def FileManager.save_file (fs : FS) (base : List String)
    (relative_path : String) (content : List Nat) (now : Nat) :
    Except String (String × FS) :=
  match get_safe_path base relative_path with
  | none => .error "Error saving file: path outside the allowed directory"
  | some p =>
    if (properAncestorsFrom base p).any fs.isFileAt then
      .error "Error saving file: a parent exists as a regular file"
    else if fs.isDirAt p ∨ p = base then
      .error "Error saving file: IsADirectoryError"
    else
      .ok (relStr base p,
        (fs.mkdirParents (properAncestorsFrom base p) now).insertEntry p
          (.file content now))

theorem find_insertEntry_self (fs : FS) (p : List String) (e : Entry) :
    (fs.insertEntry p e).find p = some e := by
  simp [FS.insertEntry, FS.find, List.find?]

/-! ## Substring search (model of Python `in` on strings and the
`.lower()` checks of git_service.py) -/

/-- `p` occurs as a contiguous run inside `s`. -/
def charsContain (s p : List Char) : Bool :=
  (List.range (s.length + 1)).any (fun i => p.isPrefixOf (s.drop i))

/-- Python `pat in s`. -/
def strContains (s pat : String) : Bool := charsContain s.toList pat.toList

/-- Python `pat in s.lower()`. -/
def strContainsLower (s pat : String) : Bool := strContains (pyLower s) pat

/-! ## git_service.py data model and oracle -/

/-- `GitStatus` (models/file_metadata.py lines 21-28). -/
structure GitStatus where
  is_clean : Bool
  has_changes : Bool
  ahead : Nat
  behind : Nat
  current_branch : String
  last_commit : Option String
  last_commit_message : Option String
deriving DecidableEq

/-- `GitOperation` (models/file_metadata.py lines 30-33). -/
structure GitOperation where
  success : Bool
  message : String
  details : Option String
deriving DecidableEq

/-- What the git library reports for `origin.push(...)`
(git_service.py lines 167-231): success, an ERROR flag on the push
info, a raised `GitCommandError`, or any other exception. -/
inductive PushRaw
  | ok
  | flagError (summary : String)
  | cmdError (msg : String)
  | exc (msg : String)
deriving DecidableEq

/-- What the git library reports for `origin.pull(...)`
(git_service.py lines 257-311): a non-empty pull info with a note, an
empty pull info, a raised `GitCommandError`, or any other exception. -/
inductive PullRaw
  | updates (note : String)
  | empty
  | cmdError (msg : String)
  | exc (msg : String)
deriving DecidableEq

/-- The repository data `get_status` reads inside its `try` block
(git_service.py lines 48-64). -/
structure StatusView where
  dirty : Bool
  branch : String
  ahead : Nat
  behind : Nat
  headValid : Bool
  headHash : String
  headMsg : String
deriving DecidableEq

/-- Oracle for the external git library: everything the service-layer
control flow branches on.  `statusView` is `Except`: `.error e` means
some call inside the `get_status` `try` block raised with text `e`. -/
structure GitWorld where
  available : Bool
  statusView : Except String StatusView
  dirtyAfterAdd : Bool
  addExc : Option String
  commitHash : String
  branchName : String
  pushRaw : PushRaw
  pullRaw : PullRaw
deriving DecidableEq

/-- `GitService.get_status` (git_service.py lines 35-86): a fixed
placeholder status when no repository is loaded; on any exception
inside the body, a status with branch `"Error"` carrying the exception
text; otherwise the repository data.  Total by construction — every
path returns a `GitStatus`, as in the source, whose `try` spans the
whole body. -/
def GitService.get_status (w : GitWorld) : GitStatus :=
  if !w.available then
    ⟨false, false, 0, 0, "No repository", none, none⟩
  else
    match w.statusView with
    | .error e => ⟨false, false, 0, 0, "Error", none, some e⟩
    | .ok v =>
      ⟨!v.dirty, v.dirty, v.ahead, v.behind, v.branch,
       if v.headValid then some v.headHash else none,
       if v.headValid then some v.headMsg else none⟩

/-- `GitService.add_and_commit` (git_service.py lines 105-141). -/
def GitService.add_and_commit (w : GitWorld) (message : String) :
    GitOperation :=
  if !w.available then
    ⟨false, "Git repository not available",
     some "Please initialize a Git repository first"⟩
  else
    match w.addExc with
    | some e => ⟨false, "Failed to commit changes", some e⟩
    | none =>
      if !w.dirtyAfterAdd then
        ⟨true, "No changes to commit", some "Working tree is clean"⟩
      else
        ⟨true, "Successfully committed changes",
         some ("Commit " ++ w.commitHash ++ ": " ++ message)⟩

/-- `GitService.push` (git_service.py lines 143-231) with its failure
classification. -/
def GitService.push (w : GitWorld) : GitOperation :=
  if !w.available then
    ⟨false, "Git repository not available",
     some "Please initialize a Git repository first"⟩
  else
    match w.pushRaw with
    | .ok =>
      ⟨true, "Successfully pushed changes",
       some ("Pushed to origin/" ++ w.branchName)⟩
    | .flagError summary =>
      if strContainsLower summary "authentication" ||
          strContainsLower summary "permission denied" then
        ⟨false, "Authentication failed",
         some "Please set up SSH keys or Personal Access Token. See README for setup instructions."⟩
      else ⟨false, "Push failed", some summary⟩
    | .cmdError msg =>
      if strContainsLower msg "authentication failed" ||
          strContainsLower msg "permission denied" then
        ⟨false, "Authentication failed",
         some "Please set up SSH keys or Personal Access Token. Check your Git credentials configuration."⟩
      else if strContainsLower msg "remote rejected" then
        ⟨false, "Push rejected by remote",
         some "The remote repository rejected the push. You may need to pull first or check branch permissions."⟩
      else ⟨false, "Push failed", some msg⟩
    | .exc msg =>
      if strContainsLower msg "authentication" ||
          strContainsLower msg "credential" then
        ⟨false, "Authentication required",
         some "Please configure Git authentication (SSH keys or Personal Access Token)"⟩
      else ⟨false, "Failed to push changes", some msg⟩

/-- `GitService.pull` (git_service.py lines 233-311) with its failure
classification. -/
def GitService.pull (w : GitWorld) : GitOperation :=
  if !w.available then
    ⟨false, "Git repository not available",
     some "Please initialize a Git repository first"⟩
  else
    match w.pullRaw with
    | .updates note =>
      ⟨true, "Successfully pulled changes",
       some ("Pulled from origin/" ++ w.branchName ++ ": " ++ note)⟩
    | .empty => ⟨true, "Already up to date", some "No changes to pull"⟩
    | .cmdError msg =>
      if strContainsLower msg "conflict" then
        ⟨false, "Merge conflict detected",
         some "Please resolve conflicts manually and try again"⟩
      else if strContainsLower msg "authentication failed" ||
          strContainsLower msg "permission denied" then
        ⟨false, "Authentication failed",
         some "Please set up SSH keys or Personal Access Token. Check your Git credentials configuration."⟩
      else ⟨false, "Failed to pull changes", some msg⟩
    | .exc msg =>
      if strContainsLower msg "authentication" ||
          strContainsLower msg "credential" then
        ⟨false, "Authentication required",
         some "Please configure Git authentication (SSH keys or Personal Access Token)"⟩
      else ⟨false, "Failed to pull changes", some msg⟩

/-- The two backend operations `commit_and_push` may invoke, recorded
in invocation order. -/
inductive GitCall
  | addCommit
  | pushCall
deriving DecidableEq

/-- Python `f"...{x}..."` on an `Optional[str]`: `None` prints as the
four characters `None`. -/
def pyOptStr : Option String → String
  | some s => s
  | none => "None"

/-- `GitService.commit_and_push` (git_service.py lines 313-337),
together with the trace of backend operations it invoked. -/
def GitService.commit_and_push (w : GitWorld) (message : String) :
    GitOperation × List GitCall :=
  let commit_result := GitService.add_and_commit w message
  if !commit_result.success then (commit_result, [.addCommit])
  else if strContains commit_result.message "No changes to commit" then
    (commit_result, [.addCommit])
  else
    let push_result := GitService.push w
    if !push_result.success then
      (⟨false, "Commit successful but push failed",
        some ("Commit: " ++ pyOptStr commit_result.details ++
          ". Push error: " ++ pyOptStr push_result.details)⟩,
       [.addCommit, .pushCall])
    else
      (⟨true, "Successfully committed and pushed changes",
        some (pyOptStr commit_result.details ++ ". " ++
          pyOptStr push_result.details)⟩,
       [.addCommit, .pushCall])

/-! ## sync_service.py -/

/-- `SyncConfig` (models/config.py lines 3-8). -/
structure SyncConfig where
  auto_pull_interval : Nat
  auto_pull_on_startup : Bool
  default_commit_message : String
  files_directory : String
  max_file_size : Nat
deriving DecidableEq

/-- The mutable fields of `SyncService` the claims concern
(sync_service.py lines 15-17). -/
structure SyncState where
  last_pull_time : Option Nat
  is_running : Bool
deriving DecidableEq

/-- Result of one `perform_pull` call: the returned boolean, the
updated state, and whether `git_service.pull()` was invoked. -/
structure PullOutcome where
  ok : Bool
  state : SyncState
  pullInvoked : Bool
deriving DecidableEq

/-- `SyncService.perform_pull` (sync_service.py lines 63-86): when the
repository is unavailable it returns `False` at line 71, BEFORE the
`last_pull_time` write at line 75; otherwise it invokes the backend
pull, stamps `last_pull_time`, and returns the pull result flag.
(`is_repo_available` and `GitService.pull` never raise, so the
`except` clause at lines 84-86 is unreachable in the model.) -/
def SyncService.perform_pull (w : GitWorld) (s : SyncState) (now : Nat) :
    PullOutcome :=
  if !w.available then ⟨false, s, false⟩
  else
    let result := GitService.pull w
    let s' : SyncState := ⟨some now, s.is_running⟩
    if result.success then ⟨true, s', true⟩ else ⟨false, s', true⟩

/-- The dictionary `get_sync_status` returns (sync_service.py lines
88-95). -/
structure SyncStatusView where
  is_running : Bool
  last_pull_time : Option Nat
  auto_pull_interval : Nat
  auto_pull_on_startup : Bool
deriving DecidableEq

/-- `SyncService.get_sync_status` (sync_service.py lines 88-95): a pure
read of the scheduler state. -/
def SyncService.get_sync_status (cfg : SyncConfig) (s : SyncState) :
    SyncStatusView :=
  ⟨s.is_running, s.last_pull_time, cfg.auto_pull_interval,
   cfg.auto_pull_on_startup⟩

/-- The `POST /sync/manual-pull` handler (main.py lines 190-209): it
awaits `sync_service.perform_pull()` and translates the boolean into a
`GitOperation`; the state it leaves behind is whatever `perform_pull`
produced. -/
def manual_sync_pull (w : GitWorld) (s : SyncState) (now : Nat) :
    GitOperation × SyncState :=
  let r := SyncService.perform_pull w s now
  if r.ok then
    (⟨true, "Manual sync pull completed successfully",
      some "Files have been synchronized"⟩, r.state)
  else
    (⟨false, "Manual sync pull failed",
      some "Check logs for more information"⟩, r.state)

/-! ## The periodic loop as a transition system

`_sync_loop` (sync_service.py lines 50-61) is

    while self.is_running:            -- pc = whileCheck
        await asyncio.sleep(interval) -- pc = sleeping (cancellation point)
        if self.is_running:           -- pc = recheck
            await self.perform_pull() -- the pullStart event

and `stop_auto_sync` (lines 35-48) clears `is_running`, cancels the
task (the `CancelledError` is delivered at the sleep) and awaits it.
A pull is atomic here: the event marks that line 57 started. -/

/-- Program points of `_sync_loop`. -/
inductive LoopPC
  | whileCheck
  | sleeping
  | recheck
  | done
deriving DecidableEq

/-- Scheduler state seen by the loop: the shared `is_running` flag and
the loop program counter. -/
structure SchedState where
  is_running : Bool
  pc : LoopPC
deriving DecidableEq

/-- Transition labels: `pullStart` marks the loop invoking
`perform_pull` (line 57); every other step is `silent`. -/
inductive SyncEvent
  | pullStart
  | silent
deriving DecidableEq

/-- Interleaved small-step semantics of `_sync_loop` together with the
`is_running := False` write of `stop_auto_sync` (line 40) and the
cancellation delivered at the sleep (lines 44, 58). -/
inductive LoopStep : SchedState → SyncEvent → SchedState → Prop
  /-- line 53, flag still set: enter the interval sleep (line 54). -/
  | whileTrue : LoopStep ⟨true, .whileCheck⟩ .silent ⟨true, .sleeping⟩
  /-- line 53, flag cleared: the loop exits normally. -/
  | whileFalse : LoopStep ⟨false, .whileCheck⟩ .silent ⟨false, .done⟩
  /-- the sleep elapses; the flag is re-read at line 56 next. -/
  | wake (r : Bool) : LoopStep ⟨r, .sleeping⟩ .silent ⟨r, .recheck⟩
  /-- `task.cancel()` delivers `CancelledError` inside the sleep; the
  handler at line 58 ends the loop. -/
  | cancelled (r : Bool) : LoopStep ⟨r, .sleeping⟩ .silent ⟨r, .done⟩
  /-- line 56 with the flag still set: the pull of line 57 starts. -/
  | recheckTrue : LoopStep ⟨true, .recheck⟩ .pullStart ⟨true, .whileCheck⟩
  /-- line 56 with the flag cleared during the sleep: no pull. -/
  | recheckFalse : LoopStep ⟨false, .recheck⟩ .silent ⟨false, .whileCheck⟩
  /-- `stop_auto_sync` line 40 clears the flag, at any loop point. -/
  | stopFlag (pc : LoopPC) : LoopStep ⟨true, pc⟩ .silent ⟨false, pc⟩

/-- Reflexive-transitive closure of `LoopStep`, recording the events. -/
inductive LoopSteps : SchedState → List SyncEvent → SchedState → Prop
  | refl (s : SchedState) : LoopSteps s [] s
  | step {s s' s'' : SchedState} {e : SyncEvent} {evs : List SyncEvent} :
      LoopStep s e s' → LoopSteps s' evs s'' → LoopSteps s (e :: evs) s''

/-- The state in which `stop_auto_sync` returns: it cleared the flag
(line 40) and `await self._sync_task` (line 46) saw the loop exit. -/
def stopReturned (s : SchedState) : Prop :=
  s.is_running = false ∧ s.pc = .done

/-! ## Shared helper lemmas -/

theorem isPrefixOf_self_append {α : Type} [BEq α] [LawfulBEq α]
    (l t : List α) : l.isPrefixOf (l ++ t) = true := by
  simp

theorem eq_append_of_isPrefixOf {α : Type} [BEq α] [LawfulBEq α]
    (l1 l2 : List α) (h : l1.isPrefixOf l2 = true) :
    ∃ t, l2 = l1 ++ t := by
  simp at h
  obtain ⟨t, ht⟩ := h
  exact ⟨t, ht.symm⟩

theorem charsContain_intro (x p y : List Char) :
    charsContain (x ++ (p ++ y)) p = true := by
  rw [charsContain, List.any_eq_true]
  refine ⟨x.length, ?_, ?_⟩
  · rw [List.mem_range]
    simp [List.length_append]
    omega
  · rw [List.drop_left]
    exact isPrefixOf_self_append p y

theorem get_safe_path_some (base : List String) (rel : String)
    (p : List String) (h : get_safe_path base rel = some p) :
    p = pathJoin base (sanitize_path rel) ∧
    (resolveSegs base).isPrefixOf (resolveSegs p) = true := by
  rw [get_safe_path] at h
  split at h
  · rename_i hc
    cases h
    exact ⟨rfl, hc⟩
  · cases h

/-! ## Claim theorems -/

/-- C8: `get_status` never lets an exception escape — it is a total
function of the oracle, as the source's `try` spans the whole body —
and on an internal failure with text `e` it returns the status whose
branch is the error marker `"Error"` and whose message field carries
`e`. -/
theorem C8_get_status_internal_failure (w : GitWorld) (e : String)
    (hav : w.available = true) (herr : w.statusView = .error e) :
    GitService.get_status w =
      ⟨false, false, 0, 0, "Error", none, some e⟩ := by
  simp [GitService.get_status, hav, herr]

theorem C8_witness :
    GitService.get_status
        ⟨true, .error "boom", false, none, "", "main", .ok, .empty⟩ =
      ⟨false, false, 0, 0, "Error", none, some "boom"⟩ :=
  C8_get_status_internal_failure
    ⟨true, .error "boom", false, none, "", "main", .ok, .empty⟩ "boom"
    rfl rfl

/-- C10: when the repository is available and the status read succeeds,
the clean flag is the negation of the has-changes flag; in the
unavailable-repository and internal-failure cases both flags are
simultaneously false. -/
theorem C10_status_flags (w : GitWorld) :
    (∀ v, w.available = true → w.statusView = .ok v →
      (GitService.get_status w).is_clean =
        !(GitService.get_status w).has_changes) ∧
    (w.available = false →
      (GitService.get_status w).is_clean = false ∧
      (GitService.get_status w).has_changes = false) ∧
    (∀ e, w.available = true → w.statusView = .error e →
      (GitService.get_status w).is_clean = false ∧
      (GitService.get_status w).has_changes = false) := by
  refine ⟨?_, ?_, ?_⟩
  · intro v hav hv
    simp [GitService.get_status, hav, hv]
  · intro hav
    simp [GitService.get_status, hav]
  · intro e hav he
    simp [GitService.get_status, hav, he]

theorem C10_witness :
    ((GitService.get_status
        ⟨true, .ok ⟨true, "main", 1, 2, false, "", ""⟩, false, none, "",
         "main", .ok, .empty⟩).is_clean =
      !(GitService.get_status
        ⟨true, .ok ⟨true, "main", 1, 2, false, "", ""⟩, false, none, "",
         "main", .ok, .empty⟩).has_changes) ∧
    ((GitService.get_status
        ⟨false, .ok ⟨true, "main", 1, 2, false, "", ""⟩, false, none, "",
         "main", .ok, .empty⟩).is_clean = false ∧
     (GitService.get_status
        ⟨false, .ok ⟨true, "main", 1, 2, false, "", ""⟩, false, none, "",
         "main", .ok, .empty⟩).has_changes = false) ∧
    ((GitService.get_status
        ⟨true, .error "x", false, none, "", "main", .ok, .empty⟩).is_clean =
        false ∧
     (GitService.get_status
        ⟨true, .error "x", false, none, "", "main", .ok, .empty⟩).has_changes =
        false) :=
  ⟨(C10_status_flags _).1 ⟨true, "main", 1, 2, false, "", ""⟩ rfl rfl,
   (C10_status_flags _).2.1 rfl,
   (C10_status_flags _).2.2 "x" rfl rfl⟩

/-- C2 counterexample: with the repository unavailable, `perform_pull`
returns `False` but does NOT record the attempt timestamp — the state
comes back unchanged with `last_pull_time` still `None`, refuting
"in every case — success, backend failure, or unavailable repository —
it records the attempt timestamp before returning" at this input. -/
theorem C2_counterexample :
    (SyncService.perform_pull
        ⟨false, .ok ⟨false, "main", 0, 0, false, "", ""⟩, false, none, "",
         "main", .ok, .empty⟩ ⟨none, true⟩ 7).ok = false ∧
    (SyncService.perform_pull
        ⟨false, .ok ⟨false, "main", 0, 0, false, "", ""⟩, false, none, "",
         "main", .ok, .empty⟩ ⟨none, true⟩ 7).state.last_pull_time =
      none := by
  decide

/-- C2 (amended): on an unavailable repository `perform_pull` returns
`False` without invoking the backend pull and WITHOUT recording the
attempt timestamp; whenever the repository is available it invokes the
pull and records the attempt timestamp before returning, on backend
success and failure alike. -/
theorem C2_perform_pull (w : GitWorld) (s : SyncState) (now : Nat) :
    (w.available = false →
      SyncService.perform_pull w s now = ⟨false, s, false⟩) ∧
    (w.available = true →
      (SyncService.perform_pull w s now).state.last_pull_time = some now ∧
      (SyncService.perform_pull w s now).pullInvoked = true ∧
      (SyncService.perform_pull w s now).ok =
        (GitService.pull w).success) := by
  constructor
  · intro h
    simp [SyncService.perform_pull, h]
  · intro h
    rw [SyncService.perform_pull]
    simp only [h, Bool.not_true, Bool.false_eq_true, if_false]
    split <;> rename_i hs <;> simp_all

theorem C2_witness :
    (SyncService.perform_pull
        ⟨false, .ok ⟨false, "main", 0, 0, false, "", ""⟩, false, none, "",
         "main", .ok, .empty⟩ ⟨none, true⟩ 7 =
      ⟨false, ⟨none, true⟩, false⟩) ∧
    ((SyncService.perform_pull
        ⟨true, .ok ⟨false, "main", 0, 0, false, "", ""⟩, false, none, "",
         "main", .ok, .empty⟩ ⟨none, true⟩ 9).state.last_pull_time =
      some 9 ∧
     (SyncService.perform_pull
        ⟨true, .ok ⟨false, "main", 0, 0, false, "", ""⟩, false, none, "",
         "main", .ok, .empty⟩ ⟨none, true⟩ 9).pullInvoked = true ∧
     (SyncService.perform_pull
        ⟨true, .ok ⟨false, "main", 0, 0, false, "", ""⟩, false, none, "",
         "main", .ok, .empty⟩ ⟨none, true⟩ 9).ok =
       (GitService.pull
        ⟨true, .ok ⟨false, "main", 0, 0, false, "", ""⟩, false, none, "",
         "main", .ok, .empty⟩).success) :=
  ⟨(C2_perform_pull _ ⟨none, true⟩ 7).1 rfl,
   (C2_perform_pull _ ⟨none, true⟩ 9).2 rfl⟩

/-- C3 counterexample: the manual-pull endpoint is NOT a pure reader of
the last-pull-time field — one call with an available repository
changes it from `None` to the attempt time, refuting "every other
component ... only reads it and never writes it". -/
theorem C3_counterexample :
    (manual_sync_pull
        ⟨true, .ok ⟨false, "main", 0, 0, false, "", ""⟩, false, none, "",
         "main", .ok, .empty⟩ ⟨none, true⟩ 5).2.last_pull_time = some 5 ∧
    (⟨none, true⟩ : SyncState).last_pull_time = none := by
  decide

/-- C3 (amended): every write of `last_pull_time` happens inside
`perform_pull`, and only when the repository is available, in which
case it is stamped with the attempt time; the manual-pull endpoint has
exactly `perform_pull`'s state effect — so it is a writer too, not a
reader; the status endpoint is a pure read that reports
`last_pull_time` unchanged. -/
theorem C3_last_pull_time_writers (w : GitWorld) (s : SyncState)
    (now : Nat) (cfg : SyncConfig) :
    ((SyncService.perform_pull w s now).state.last_pull_time ≠
        s.last_pull_time →
      w.available = true ∧
      (SyncService.perform_pull w s now).state.last_pull_time = some now) ∧
    (manual_sync_pull w s now).2 = (SyncService.perform_pull w s now).state ∧
    (SyncService.get_sync_status cfg s).last_pull_time =
      s.last_pull_time := by
  refine ⟨?_, ?_, rfl⟩
  · intro hch
    cases hav : w.available
    · exfalso
      apply hch
      simp [SyncService.perform_pull, hav]
    · refine ⟨rfl, ?_⟩
      rw [SyncService.perform_pull]
      simp only [hav, Bool.not_true, Bool.false_eq_true, if_false]
      split <;> rfl
  · rw [manual_sync_pull]
    split <;> rfl

theorem C3_witness :
    ((⟨true, .ok ⟨false, "main", 0, 0, false, "", ""⟩, false, none, "",
        "main", .ok, .empty⟩ : GitWorld).available = true ∧
     (SyncService.perform_pull
        ⟨true, .ok ⟨false, "main", 0, 0, false, "", ""⟩, false, none, "",
         "main", .ok, .empty⟩ ⟨none, true⟩ 5).state.last_pull_time =
       some 5) ∧
    (manual_sync_pull
        ⟨true, .ok ⟨false, "main", 0, 0, false, "", ""⟩, false, none, "",
         "main", .ok, .empty⟩ ⟨none, true⟩ 5).2 =
      (SyncService.perform_pull
        ⟨true, .ok ⟨false, "main", 0, 0, false, "", ""⟩, false, none, "",
         "main", .ok, .empty⟩ ⟨none, true⟩ 5).state ∧
    (SyncService.get_sync_status ⟨600, true, "m", "files", 10⟩
        ⟨none, true⟩).last_pull_time = none :=
  ⟨(C3_last_pull_time_writers
      ⟨true, .ok ⟨false, "main", 0, 0, false, "", ""⟩, false, none, "",
       "main", .ok, .empty⟩ ⟨none, true⟩ 5 ⟨600, true, "m", "files", 10⟩).1
      (by decide),
   (C3_last_pull_time_writers
      ⟨true, .ok ⟨false, "main", 0, 0, false, "", ""⟩, false, none, "",
       "main", .ok, .empty⟩ ⟨none, true⟩ 5 ⟨600, true, "m", "files", 10⟩).2.1,
   (C3_last_pull_time_writers
      ⟨true, .ok ⟨false, "main", 0, 0, false, "", ""⟩, false, none, "",
       "main", .ok, .empty⟩ ⟨none, true⟩ 5 ⟨600, true, "m", "files", 10⟩).2.2⟩

/-- C1: (i) the periodic loop starts a pull only from a state in which
the running flag is still set at the re-check following the wait; (ii)
in particular, when a stop was requested during the wait (the flag is
already cleared at the re-check point) no pull step is possible; (iii)
once `stop()` has returned — flag cleared and loop exited — the
scheduler admits no further loop step at all, so every subsequent trace
is empty and no pull is ever started after `stop()` returns. -/
theorem C1_stop_suppresses_pull :
    (∀ s s' : SchedState, LoopStep s .pullStart s' → s.is_running = true) ∧
    (∀ s s' : SchedState, s.pc = .recheck → s.is_running = false →
      ¬ LoopStep s .pullStart s') ∧
    (∀ (s s' : SchedState) (evs : List SyncEvent), stopReturned s →
      LoopSteps s evs s' → evs = []) := by
  refine ⟨?_, ?_, ?_⟩
  · intro s s' h
    cases h
    rfl
  · intro s s' hpc hrun h
    cases h
    simp at hrun
  · intro s s' evs hstop hsteps
    cases hsteps with
    | refl => rfl
    | step h1 h2 =>
      obtain ⟨hr, hp⟩ := hstop
      cases h1 <;> simp_all

theorem C1_witness :
    (⟨true, .recheck⟩ : SchedState).is_running = true ∧
    ¬ LoopStep ⟨false, .recheck⟩ .pullStart ⟨false, .whileCheck⟩ ∧
    ([] : List SyncEvent) = [] :=
  ⟨C1_stop_suppresses_pull.1 ⟨true, .recheck⟩ ⟨true, .whileCheck⟩
      LoopStep.recheckTrue,
   C1_stop_suppresses_pull.2.1 ⟨false, .recheck⟩ ⟨false, .whileCheck⟩ rfl rfl,
   C1_stop_suppresses_pull.2.2 ⟨false, .done⟩ ⟨false, .done⟩ []
      ⟨rfl, rfl⟩ (LoopSteps.refl _)⟩

/-- C7: `commit_and_push` invokes stage-and-commit first; when the
commit step reports "no changes" it returns that success result and
never invokes push; when a real commit succeeds but the push fails, it
returns a single failure result — message "Commit successful but push
failed" — whose detail text contains both the successful commit's
detail and the push error's detail. -/
theorem C7_commit_and_push (w : GitWorld) (message : String) :
    ((GitService.commit_and_push w message).2.head? = some .addCommit) ∧
    (GitService.add_and_commit w message =
        ⟨true, "No changes to commit", some "Working tree is clean"⟩ →
      GitService.commit_and_push w message =
        (⟨true, "No changes to commit", some "Working tree is clean"⟩,
         [.addCommit])) ∧
    ((GitService.add_and_commit w message).success = true →
     strContains (GitService.add_and_commit w message).message
        "No changes to commit" = false →
     (GitService.push w).success = false →
      (GitService.commit_and_push w message).1.success = false ∧
      (GitService.commit_and_push w message).1.message =
        "Commit successful but push failed" ∧
      strContains (pyOptStr (GitService.commit_and_push w message).1.details)
        (pyOptStr (GitService.add_and_commit w message).details) = true ∧
      strContains (pyOptStr (GitService.commit_and_push w message).1.details)
        (pyOptStr (GitService.push w).details) = true ∧
      (GitService.commit_and_push w message).2 =
        [.addCommit, .pushCall]) := by
  refine ⟨?_, ?_, ?_⟩
  · rw [GitService.commit_and_push]
    dsimp only
    split
    · rfl
    · split
      · rfl
      · split <;> rfl
  · intro h
    rw [GitService.commit_and_push, h]
    dsimp only
    rw [if_neg (by decide), if_pos (by decide)]
  · intro hcs hnc hps
    rw [GitService.commit_and_push]
    dsimp only
    rw [if_neg (by simp [hcs]), if_neg (by simp [hnc]),
      if_pos (by simp [hps])]
    refine ⟨rfl, rfl, ?_, ?_, rfl⟩
    · rw [pyOptStr]
      rw [strContains]
      have : ("Commit: " ++ pyOptStr (GitService.add_and_commit w message).details ++
          ". Push error: " ++ pyOptStr (GitService.push w).details).toList =
          "Commit: ".toList ++
          ((pyOptStr (GitService.add_and_commit w message).details).toList ++
           (". Push error: " ++ pyOptStr (GitService.push w).details).toList) := by
        simp [String.toList, String.data_append]
      rw [this]
      exact charsContain_intro _ _ _
    · rw [pyOptStr]
      rw [strContains]
      have : ("Commit: " ++ pyOptStr (GitService.add_and_commit w message).details ++
          ". Push error: " ++ pyOptStr (GitService.push w).details).toList =
          ("Commit: " ++ pyOptStr (GitService.add_and_commit w message).details ++
           ". Push error: ").toList ++
          ((pyOptStr (GitService.push w).details).toList ++ []) := by
        simp [String.toList, String.data_append]
      rw [this]
      exact charsContain_intro _ _ _

theorem C7_witness :
    ((GitService.commit_and_push
        ⟨true, .ok ⟨true, "main", 0, 0, false, "", ""⟩, false, none, "abc",
         "main", .cmdError "remote rejected", .empty⟩ "msg").2.head? =
      some .addCommit) ∧
    (GitService.commit_and_push
        ⟨true, .ok ⟨true, "main", 0, 0, false, "", ""⟩, false, none, "abc",
         "main", .cmdError "remote rejected", .empty⟩ "msg" =
      (⟨true, "No changes to commit", some "Working tree is clean"⟩,
       [.addCommit])) ∧
    ((GitService.commit_and_push
        ⟨true, .ok ⟨true, "main", 0, 0, false, "", ""⟩, true, none, "abc",
         "main", .cmdError "remote rejected", .empty⟩ "msg").1.success =
      false ∧
     (GitService.commit_and_push
        ⟨true, .ok ⟨true, "main", 0, 0, false, "", ""⟩, true, none, "abc",
         "main", .cmdError "remote rejected", .empty⟩ "msg").1.message =
      "Commit successful but push failed" ∧
     strContains
       (pyOptStr (GitService.commit_and_push
        ⟨true, .ok ⟨true, "main", 0, 0, false, "", ""⟩, true, none, "abc",
         "main", .cmdError "remote rejected", .empty⟩ "msg").1.details)
       (pyOptStr (GitService.add_and_commit
        ⟨true, .ok ⟨true, "main", 0, 0, false, "", ""⟩, true, none, "abc",
         "main", .cmdError "remote rejected", .empty⟩ "msg").details) =
      true ∧
     strContains
       (pyOptStr (GitService.commit_and_push
        ⟨true, .ok ⟨true, "main", 0, 0, false, "", ""⟩, true, none, "abc",
         "main", .cmdError "remote rejected", .empty⟩ "msg").1.details)
       (pyOptStr (GitService.push
        ⟨true, .ok ⟨true, "main", 0, 0, false, "", ""⟩, true, none, "abc",
         "main", .cmdError "remote rejected", .empty⟩).details) = true ∧
     (GitService.commit_and_push
        ⟨true, .ok ⟨true, "main", 0, 0, false, "", ""⟩, true, none, "abc",
         "main", .cmdError "remote rejected", .empty⟩ "msg").2 =
      [.addCommit, .pushCall]) :=
  ⟨(C7_commit_and_push _ "msg").1,
   (C7_commit_and_push _ "msg").2.1 (by decide),
   (C7_commit_and_push _ "msg").2.2 (by decide) (by decide) (by decide)⟩

/-- C4: `get_safe_path` fails (the `PathEscape` `ValueError`) exactly
when the canonicalized joined path does not have the base directory as
ancestor or equal; when it succeeds, the returned path is the sanitized
join, whose canonical form is contained in the base.  The check is
containment over canonicalized segment paths, not a raw string-prefix
test: for base `/home/u/files` the sibling `/home/u/files2` extends the
base as a string yet resolution fails.  `get_safe_path` is a pure
function of the two path arguments — no filesystem lookup occurs — so a
contained path that does not yet exist on disk still resolves without
error. -/
theorem C4_path_containment (base : List String) (rel : String) :
    (get_safe_path base rel = none ↔ specPathEscape base rel) ∧
    (∀ p, get_safe_path base rel = some p →
      p = pathJoin base (sanitize_path rel) ∧
      (resolveSegs base).isPrefixOf (resolveSegs p) = true) ∧
    (get_safe_path ["home", "u", "files"] "/home/u/files2" = none ∧
     strIsPre "/home/u/files" "/home/u/files2" = true) := by
  refine ⟨?_, ?_, by decide⟩
  · rw [get_safe_path, specPathEscape]
    split
    · rename_i h
      simp [h]
    · rename_i h
      simp [h]
  · intro p hp
    exact get_safe_path_some base rel p hp

theorem C4_witness :
    (["b", "a"] : List String) = pathJoin ["b"] (sanitize_path "a") ∧
    (resolveSegs ["b"]).isPrefixOf (resolveSegs ["b", "a"]) = true :=
  (C4_path_containment ["b"] "a").2.1 ["b", "a"] (by decide)

/-- C5 (code bug): the inner body of `get_file_content` raises the
distinct typed failures the claim describes — `FileNotFoundError` for a
missing file, a `ValueError` for binary content (NUL among the first
512 bytes), a `ValueError` for sizes over 1 MiB — but the blanket
`except Exception` clause (file_manager.py lines 70-71) re-raises every
one of them, the `FileNotFoundError` included, as a generic
`ValueError("Error reading file: ...")`.  The boundary layer's
`except FileNotFoundError` handler (main.py lines 90-91) can therefore
never match, and a missing file is answered with HTTP 500 instead of
the distinct not-found response the claim requires. -/
theorem C5_typed_failures_erased :
    (FileManager.get_file_content_inner ⟨[]⟩ ["home", "u", "files"]
        "missing.txt" =
      .error (.fileNotFound "File not found: missing.txt")) ∧
    (FileManager.get_file_content ⟨[]⟩ ["home", "u", "files"]
        "missing.txt" =
      .error (.valueError
        "Error reading file: File not found: missing.txt")) ∧
    httpGetFileContentStatus ⟨[]⟩ ["home", "u", "files"] "missing.txt" =
      500 ∧
    (FileManager.get_file_content
        ⟨[(["home", "u", "files", "x.bin"], .file [0, 1] 5)]⟩
        ["home", "u", "files"] "x.bin" =
      .error (.valueError
        "Error reading file: Cannot display binary file content")) ∧
    httpGetFileContentStatus
        ⟨[(["home", "u", "files", "x.bin"], .file [0, 1] 5)]⟩
        ["home", "u", "files"] "x.bin" = 500 := by
  decide

/-- C6: the round-trip law.  If `save_file` succeeds for a path in the
sandbox and bytes that are valid UTF-8, at most 1 MiB, with no NUL
among the first 512 bytes, then `get_file_content` on the same relative
path succeeds and returns exactly the written text: its content decodes
the written bytes and re-encodes to the identical byte sequence. -/
theorem C6_save_then_read (fs : FS) (base : List String) (rel : String)
    (cps bytes : List Nat) (now : Nat) (out : String) (fs' : FS)
    (henc : bytes = utf8Encode cps)
    (hscalar : ∀ c ∈ cps, Utf8Scalar c)
    (hsize : bytes.length ≤ 1024 * 1024)
    (hnonul : is_binary_file bytes = false)
    (hsave : FileManager.save_file fs base rel bytes now = .ok (out, fs')) :
    FileManager.get_file_content fs' base rel =
      .ok ⟨cps,
        get_file_language (lastSeg (pathJoin base (sanitize_path rel))),
        rel, bytes.length, now⟩ ∧
    utf8Encode cps = bytes := by
  rw [FileManager.save_file] at hsave
  cases hgsp : get_safe_path base rel with
  | none =>
    rw [hgsp] at hsave
    cases hsave
  | some p =>
    rw [hgsp] at hsave
    dsimp only at hsave
    split at hsave
    · cases hsave
    · split at hsave
      · cases hsave
      · simp only [Except.ok.injEq, Prod.mk.injEq] at hsave
        obtain ⟨hout, hfs⟩ := hsave
        have hp := get_safe_path_some base rel p hgsp
        refine ⟨?_, henc.symm⟩
        have hinner : FileManager.get_file_content_inner fs' base rel =
            .ok ⟨utf8Decode bytes, get_file_language (lastSeg p), rel,
              bytes.length, now⟩ := by
          rw [FileManager.get_file_content_inner, hgsp]
          dsimp only
          rw [← hfs, find_insertEntry_self]
          dsimp only
          rw [if_neg (by simp [hnonul]), if_neg (by omega)]
        rw [FileManager.get_file_content, hinner]
        dsimp only
        rw [henc, utf8Decode_utf8Encode cps hscalar, hp.1]

theorem C6_witness :
    FileManager.get_file_content
        ⟨[(["b", "a.txt"], .file [104, 105] 3)]⟩ ["b"] "a.txt" =
      .ok ⟨[104, 105],
        get_file_language (lastSeg (pathJoin ["b"] (sanitize_path "a.txt"))),
        "a.txt", [104, 105].length, 3⟩ ∧
    utf8Encode [104, 105] = [104, 105] :=
  C6_save_then_read ⟨[]⟩ ["b"] "a.txt" [104, 105] [104, 105] 3 "a.txt"
    ⟨[(["b", "a.txt"], .file [104, 105] 3)]⟩
    (by decide) (by decide) (by decide) (by decide) (by decide)

theorem assocFind_iff (l : List (List String × Entry))
    (hnd : (l.map Prod.fst).Nodup) (p : List String) (e : Entry) :
    (l.find? (fun pe => pe.1 == p)).map (fun pe => pe.2) = some e ↔
      (p, e) ∈ l := by
  induction l with
  | nil => simp
  | cons a as ih =>
    obtain ⟨q, ent⟩ := a
    rw [List.map_cons, List.nodup_cons] at hnd
    obtain ⟨hna, hnd'⟩ := hnd
    rw [List.find?]
    cases hb : ((q, ent).1 == p) with
    | true =>
      have hqp : q = p := by simpa using hb
      subst hqp
      simp only [Option.map_some]
      constructor
      · intro h
        simp only [Option.map_some] at h
        injection h with h2
        rw [← h2]
        exact List.mem_cons_self _ _
      · intro h
        rcases List.mem_cons.mp h with h | h
        · injection h with h1 h2
          rw [h2]
          simp
        · exfalso
          exact hna (List.mem_map.mpr ⟨(q, e), h, rfl⟩)
    | false =>
      have hqp : q ≠ p := by simpa using hb
      rw [ih hnd']
      constructor
      · intro h
        exact List.mem_cons_of_mem _ h
      · intro h
        rcases List.mem_cons.mp h with h | h
        · exfalso
          apply hqp
          injection h with h1 h2
          rw [h1]
        · exact h

theorem FS.find_iff_mem (fs : FS)
    (hnd : (fs.entries.map Prod.fst).Nodup) (p : List String)
    (e : Entry) : fs.find p = some e ↔ (p, e) ∈ fs.entries :=
  assocFind_iff fs.entries hnd p e

theorem find_base_none (fs : FS) (base : List String)
    (h : FSWF fs base) : fs.find base = none := by
  cases hf : fs.find base with
  | none => rfl
  | some e =>
    exfalso
    exact (h.under _ ((FS.find_iff_mem fs h.nodup base e).mp hf)).2 rfl

/-- C9: for every relative path the sandbox resolves, `list_files`
returns the empty sequence — not an error — when the target does not
exist (the OS walk of the joined path fails at a missing or non-directory
intermediate component, or nothing is stored at its resolved end); when
the walk reaches an existing directory it returns a list that is sorted
directories-first and then case-insensitively by name, and whose members
are exactly the items derived from the direct children of the resolved
target whose names do not start with a dot. -/
theorem C9_list_files (fs : FS) (base : List String) (rel : String)
    (target : List String) (hwf : FSWF fs base)
    (hgsp : get_safe_path base rel = some target) :
    (fs.statPath base target = none →
      FileManager.list_files fs base rel = .ok []) ∧
    (∀ r mt, FS.walk fs base [] target = some r →
      fs.entryAt base r = some (.dir mt) →
      ∃ l, FileManager.list_files fs base rel = .ok l ∧
        l.Pairwise (fun a b => fileItemLe a b = true) ∧
        (∀ it, it ∈ l ↔ ∃ name e,
          fs.find (r ++ [name]) = some e ∧
          pyStartsDot name = false ∧
          it = mkFileItem base (target ++ [name]) name e)) := by
  constructor
  · intro hmiss
    rw [FS.statPath] at hmiss
    rw [FileManager.list_files, hgsp]
    dsimp only
    cases hwalk : FS.walk fs base [] target with
    | none => rfl
    | some r =>
      rw [hwalk] at hmiss
      dsimp only [Option.bind] at hmiss
      dsimp only
      rw [hmiss]
  · intro r mt hwalk hent
    rw [FileManager.list_files, hgsp]
    dsimp only
    rw [hwalk]
    dsimp only
    rw [hent]
    dsimp only
    rw [if_neg (by simp [Entry.isFileB])]
    refine ⟨_, rfl, ?_, ?_⟩
    · exact pairwise_sortLe _ fileItemLe_total fileItemLe_trans _
    · intro it
      rw [mem_sortLe, childItems, List.mem_filterMap]
      constructor
      · rintro ⟨⟨q, ent⟩, hmem, hf⟩
        dsimp only at hf
        cases hcn : childNameOf r q with
        | none =>
          rw [hcn] at hf
          cases hf
        | some nm =>
          rw [hcn] at hf
          dsimp only [Option.bind] at hf
          split at hf
          · cases hf
          · rename_i hdot
            rw [childNameOf] at hcn
            split at hcn
            · rename_i hc
              obtain ⟨t, rfl⟩ := eq_append_of_isPrefixOf r q hc.1
              have hlen := hc.2
              rw [List.length_append] at hlen
              cases t with
              | nil => simp at hlen
              | cons x xs =>
                cases xs with
                | nil =>
                  rw [List.getLast?_concat] at hcn
                  have hx : x = nm := by injection hcn
                  rw [hx] at hmem
                  refine ⟨nm, ent,
                    (FS.find_iff_mem fs hwf.nodup _ ent).mpr hmem,
                    by simpa using hdot, ?_⟩
                  injection hf with h2
                  exact h2.symm
                | cons y ys =>
                  simp [List.length_cons] at hlen
            · cases hcn
      · rintro ⟨name, e, hfind, hdot, hit⟩
        refine ⟨(r ++ [name], e),
          (FS.find_iff_mem fs hwf.nodup _ e).mp hfind, ?_⟩
        have hcn : childNameOf r (r ++ [name]) = some name := by
          rw [childNameOf,
            if_pos ⟨isPrefixOf_self_append r [name], by simp⟩]
          exact List.getLast?_concat _
        dsimp only
        rw [hcn]
        dsimp only [Option.bind]
        rw [if_neg (by simp [hdot]), hit]

theorem C9_witness :
    FileManager.list_files ⟨[]⟩ ["b"] "x" = .ok [] ∧
    (∃ l, FileManager.list_files ⟨[(["b", "d"], .dir 1)]⟩ ["b"] "d" =
        .ok l ∧
      l.Pairwise (fun a b => fileItemLe a b = true) ∧
      (∀ it, it ∈ l ↔ ∃ name e,
        (⟨[(["b", "d"], .dir 1)]⟩ : FS).find (["b", "d"] ++ [name]) =
          some e ∧
        pyStartsDot name = false ∧
        it = mkFileItem ["b"] (["b", "d"] ++ [name]) name e)) :=
  ⟨(C9_list_files ⟨[]⟩ ["b"] "x" ["b", "x"]
      ⟨by decide, by decide, by decide⟩ (by decide)).1 (by decide),
   (C9_list_files ⟨[(["b", "d"], .dir 1)]⟩ ["b"] "d" ["b", "d"]
      ⟨by decide, by decide, by decide⟩ (by decide)).2
      ["b", "d"] 1 (by decide) (by decide)⟩

end SyncServices
